import Mathlib

/-!
Verification of the DHKEM engine of rust-hpke (src/src/kem/dhkem.rs),
shallowly embedded over abstract Diffie-Hellman-group and KDF capabilities.

Bytes are modelled as `List Nat`. Rust `Result<T, HpkeError>` becomes
`Except HpkeError T`. A Rust panic (out-of-bounds write in the concat
buffer, or the `.expect` on `extract_and_expand`) is modelled as the
outer `none` of an `Option`: `encap_with_eph` and `decap` return
`Option (Except HpkeError _)`, with `none` = panic,
`some (Except.error e)` = `Err(e)`, `some (Except.ok v)` = `Ok(v)`.
-/

namespace Hpke

/-- Error type of the crate; modelled from the spec's error taxonomy (§7):
EncapError, DecapError, and the group's deserialization error, since the
crate-level `HpkeError` enum is not part of the given sources. -/
inductive HpkeError where
  | EncapError
  | DecapError
  | DeserializeError
  deriving DecidableEq, Repr

/-- The consumed Diffie-Hellman group capability (the `DhKeyExchange` trait):
`dh` returns `none` on an invalid/degenerate exchange (the engine only ever
maps the error, so the error payload is irrelevant), `sk_to_pk` derives the
public key, `pkToBytes`/`pkFromBytes` are the group's fixed-size public-key
serialization (`to_bytes`/`from_bytes`), and `kxToBytes` serializes a
DH-exchange result. -/
structure DhKeyExchange (SK PK KX : Type) where
  dh : SK → PK → Option KX
  sk_to_pk : SK → PK
  pkToBytes : PK → List Nat
  pkFromBytes : List Nat → Except HpkeError PK
  kxToBytes : KX → List Nat

/-- Modelled from the spec (§4.1/§4.3): the compile-time maximum serialized
public-key size (the crate constant `MAX_PUBKEY_SIZE`, not part of the given
sources), used to size the stack concatenation buffers. -/
def MAX_PUBKEY_SIZE : Nat := 65

/-- Modelled from the spec (§4.3): the fixed-capacity concatenation buffer
(the `concat_with_known_maxlen!` macro, not part of the given sources). The
caller supplies the per-slice bound `maxlen`; the backing buffer's capacity —
the upper bound on total size — is `3 * maxlen` ("e.g., 3× max-pubkey-size"),
since at most three slices are ever joined. On success it returns the
zero-padded fixed-size buffer together with the filled region's length;
`none` models the out-of-bounds write (a panic) that would occur if the
total length exceeded the capacity. -/
def concat_with_known_maxlen (maxlen : Nat) (slices : List (List Nat)) :
    Option (List Nat × Nat) :=
  let total := (slices.map List.length).sum
  if total ≤ 3 * maxlen then
    some (slices.flatten ++ List.replicate (3 * maxlen - total) 0, total)
  else
    none

/-- Modelled from the spec (§3, §6): the suite identifier binds the protocol
name and the 16-bit numeric KEM identifier: "KEM" || I2OSP(kem_id, 2)
(`kem_suite_id` in util.rs, not part of the given sources). -/
def kem_suite_id (kem_id : Nat) : List Nat :=
  [75, 69, 77, kem_id / 256 % 256, kem_id % 256]

/-- The consumed KDF capability: `hashLen` is the output size of the
underlying hash (= `NSecret`, src lines 78–84), and `hkdf` is the total
extract-then-expand derivation `ikm → salt → info → outLen → out`. -/
structure Kdf where
  hashLen : Nat
  hkdf : List Nat → List Nat → List Nat → Nat → List Nat

/-- Modelled from the spec (§4.2): `extract_and_expand(ikm, salt, info, out)`
(kdf.rs, not part of the given sources) fails exactly when the requested
output length exceeds 255× the hash output size, and otherwise fills the
output buffer with the extract-then-expand derivation. -/
def extract_and_expand (K : Kdf) (ikm salt info : List Nat) (outLen : Nat) :
    Option (List Nat) :=
  if outLen ≤ 255 * K.hashLen then some (K.hkdf ikm salt info outLen) else none

/-- `EncappedKey` (src lines 46–51): wraps exactly one public key. -/
structure EncappedKey (PK : Type) where
  pubkey : PK
  deriving DecidableEq, Repr

/-- `Serializable for EncappedKey` (src lines 55–62): passes to the
underlying pubkey `to_bytes`. -/
def EncappedKey.to_bytes {SK PK KX : Type} (G : DhKeyExchange SK PK KX)
    (e : EncappedKey PK) : List Nat :=
  G.pkToBytes e.pubkey

/-- `Deserializable for EncappedKey` (src lines 64–71): passes to the
underlying pubkey `from_bytes`, propagating its error with `?`. -/
def EncappedKey.from_bytes {SK PK KX : Type} (G : DhKeyExchange SK PK KX)
    (encoded : List Nat) : Except HpkeError (EncappedKey PK) :=
  match G.pkFromBytes encoded with
  | Except.ok pubkey => Except.ok ⟨pubkey⟩
  | Except.error e => Except.error e

/-- `encap_with_eph` (src lines 155–242). `kem_id` is the KEM's `KEM_ID`;
the shared secret is the KDF-output byte list (the fixed-size
`SharedSecret<Self>` buffer of length `NSecret = K.hashLen`). `none` models
a panic (an out-of-bounds concat write, or the `.expect` on
`extract_and_expand`). -/
def encap_with_eph {SK PK KX : Type} (G : DhKeyExchange SK PK KX) (K : Kdf)
    (kem_id : Nat) (pk_recip : PK) (sender_id_keypair : Option (SK × PK))
    (sk_eph : SK) : Option (Except HpkeError (List Nat × EncappedKey PK)) :=
  -- let suite_id = kem_suite_id::<Self>();  (src line 161)
  -- let kex_res_eph = dh(&sk_eph, pk_recip).map_err(|_| EncapError)?;  (164–165)
  match G.dh sk_eph pk_recip with
  | none => some (Except.error HpkeError.EncapError)
  | some kex_res_eph =>
    -- let encapped_key = EncappedKey(sk_to_pk(&sk_eph));  (168–171)
    match sender_id_keypair with
    | some (sk_sender_id, pk_sender_id) =>
      -- kem_context = encapped_key || pk_recip || pk_sender_id  (179–185)
      match concat_with_known_maxlen MAX_PUBKEY_SIZE
          [EncappedKey.to_bytes G ⟨G.sk_to_pk sk_eph⟩,
           G.pkToBytes pk_recip, G.pkToBytes pk_sender_id] with
      | none => none
      | some (kem_context_buf, kem_context_size) =>
        -- kex_res_identity = dh(sk_sender_id, pk_recip).map_err(|_| EncapError)?  (189–190)
        match G.dh sk_sender_id pk_recip with
        | none => some (Except.error HpkeError.EncapError)
        | some kex_res_identity =>
          -- concatted_secrets = kex_res_eph || kex_res_identity  (194–199)
          match concat_with_known_maxlen MAX_PUBKEY_SIZE
              [G.kxToBytes kex_res_eph, G.kxToBytes kex_res_identity] with
          | none => none
          | some (concatted_secrets_buf, concatted_secret_size) =>
            -- extract_and_expand(concatted_secrets, &suite_id, kem_context, &mut buf.0)
            --   .expect("shared secret is way too big")  (206–214)
            match extract_and_expand K
                (concatted_secrets_buf.take concatted_secret_size)
                (kem_suite_id kem_id)
                (kem_context_buf.take kem_context_size) K.hashLen with
            | none => none
            | some buf => some (Except.ok (buf, ⟨G.sk_to_pk sk_eph⟩))
    | none =>
      -- kem_context = encapped_key || pk_recip  (219–224)
      match concat_with_known_maxlen MAX_PUBKEY_SIZE
          [EncappedKey.to_bytes G ⟨G.sk_to_pk sk_eph⟩, G.pkToBytes pk_recip] with
      | none => none
      | some (kem_context_buf, kem_context_size) =>
        -- extract_and_expand(&kex_res_eph.to_bytes(), &suite_id, kem_context, &mut buf.0)
        --   .expect("shared secret is way too big")  (230–237)
        match extract_and_expand K (G.kxToBytes kex_res_eph)
            (kem_suite_id kem_id)
            (kem_context_buf.take kem_context_size) K.hashLen with
        | none => none
        | some buf => some (Except.ok (buf, ⟨G.sk_to_pk sk_eph⟩))

/-- `decap` (src lines 275–357). `none` models a panic exactly as in
`encap_with_eph`. -/
def decap {SK PK KX : Type} (G : DhKeyExchange SK PK KX) (K : Kdf)
    (kem_id : Nat) (sk_recip : SK) (pk_sender_id : Option PK)
    (encapped_key : EncappedKey PK) : Option (Except HpkeError (List Nat)) :=
  -- let kex_res_eph = dh(sk_recip, &encapped_key.0).map_err(|_| DecapError)?;  (284–285)
  match G.dh sk_recip encapped_key.pubkey with
  | none => some (Except.error HpkeError.DecapError)
  | some kex_res_eph =>
    -- let pk_recip = sk_to_pk(sk_recip);  (288)
    match pk_sender_id with
    | some pkS =>
      -- kem_context = encapped_key || pk_recip || pk_sender_id  (296–302)
      match concat_with_known_maxlen MAX_PUBKEY_SIZE
          [EncappedKey.to_bytes G encapped_key,
           G.pkToBytes (G.sk_to_pk sk_recip), G.pkToBytes pkS] with
      | none => none
      | some (kem_context_buf, kem_context_size) =>
        -- kex_res_identity = dh(sk_recip, pk_sender_id).map_err(|_| DecapError)?  (306–307)
        match G.dh sk_recip pkS with
        | none => some (Except.error HpkeError.DecapError)
        | some kex_res_identity =>
          -- concatted_secrets = kex_res_eph || kex_res_identity  (311–316)
          match concat_with_known_maxlen MAX_PUBKEY_SIZE
              [G.kxToBytes kex_res_eph, G.kxToBytes kex_res_identity] with
          | none => none
          | some (concatted_secrets_buf, concatted_secret_size) =>
            -- extract_and_expand(concatted_secrets, &suite_id, kem_context, ...)  (324–330)
            match extract_and_expand K
                (concatted_secrets_buf.take concatted_secret_size)
                (kem_suite_id kem_id)
                (kem_context_buf.take kem_context_size) K.hashLen with
            | none => none
            | some s => some (Except.ok s)
    | none =>
      -- kem_context = encapped_key || pk_recip  (336–341)
      match concat_with_known_maxlen MAX_PUBKEY_SIZE
          [EncappedKey.to_bytes G encapped_key,
           G.pkToBytes (G.sk_to_pk sk_recip)] with
      | none => none
      | some (kem_context_buf, kem_context_size) =>
        -- extract_and_expand(&kex_res_eph.to_bytes(), &suite_id, kem_context, ...)  (348–354)
        match extract_and_expand K (G.kxToBytes kex_res_eph)
            (kem_suite_id kem_id)
            (kem_context_buf.take kem_context_size) K.hashLen with
        | none => none
        | some s => some (Except.ok s)

/-! ### Basic facts about the modelled helpers -/

theorem concat_eq (maxlen : Nat) (slices : List (List Nat))
    (h : (slices.map List.length).sum ≤ 3 * maxlen) :
    concat_with_known_maxlen maxlen slices =
      some (slices.flatten ++
              List.replicate (3 * maxlen - (slices.map List.length).sum) 0,
            (slices.map List.length).sum) := by
  simp [concat_with_known_maxlen, h]

theorem concat_some {maxlen : Nat} {slices : List (List Nat)}
    {p : List Nat × Nat}
    (h : concat_with_known_maxlen maxlen slices = some p) :
    (slices.map List.length).sum ≤ 3 * maxlen ∧
      p.1.take p.2 = slices.flatten := by
  by_cases hb : (slices.map List.length).sum ≤ 3 * maxlen
  · refine ⟨hb, ?_⟩
    rw [concat_eq maxlen slices hb] at h
    have hp := (Option.some.injEq _ _).mp h
    subst hp
    exact List.take_left' (List.length_flatten slices)
  · simp [concat_with_known_maxlen, hb] at h

/-- `extract_and_expand` never fails at the engine's fixed output length
`NSecret = hashLen` (hashLen ≤ 255·hashLen always). -/
theorem extract_and_expand_total (K : Kdf) (ikm salt info : List Nat) :
    extract_and_expand K ikm salt info K.hashLen =
      some (K.hkdf ikm salt info K.hashLen) := by
  have h : K.hashLen ≤ 255 * K.hashLen :=
    Nat.le_mul_of_pos_left _ (by norm_num)
  simp [extract_and_expand, h]

/-- Unauthenticated `encap_with_eph`, closed form: on a successful ephemeral
DH it returns the KDF output at ikm = dh(sk_eph, pk_recip),
salt = suite_id, info = serialize(pk_eph) || serialize(pk_recip). -/
theorem encap_unauth_eq {SK PK KX : Type} (G : DhKeyExchange SK PK KX)
    (K : Kdf) (kem_id : Nat) (pk_recip : PK) (sk_eph : SK)
    (hser : ∀ pk : PK, (G.pkToBytes pk).length ≤ MAX_PUBKEY_SIZE) :
    encap_with_eph G K kem_id pk_recip none sk_eph =
      match G.dh sk_eph pk_recip with
      | none => some (Except.error HpkeError.EncapError)
      | some kex_res_eph => some (Except.ok
          (K.hkdf (G.kxToBytes kex_res_eph) (kem_suite_id kem_id)
             (G.pkToBytes (G.sk_to_pk sk_eph) ++ G.pkToBytes pk_recip)
             K.hashLen,
           ⟨G.sk_to_pk sk_eph⟩)) := by
  have hbctx : (([EncappedKey.to_bytes G ⟨G.sk_to_pk sk_eph⟩,
        G.pkToBytes pk_recip].map List.length).sum) ≤ 3 * MAX_PUBKEY_SIZE := by
    have ha := hser (G.sk_to_pk sk_eph)
    have hb := hser pk_recip
    simp only [List.map_cons, List.map_nil, List.sum_cons, List.sum_nil,
      EncappedKey.to_bytes]
    omega
  cases h1 : G.dh sk_eph pk_recip with
  | none => simp [encap_with_eph, h1]
  | some kex_res_eph =>
    simp only [encap_with_eph, h1]
    rw [concat_eq _ _ hbctx]
    simp only [List.take_left' (List.length_flatten _), extract_and_expand_total]
    simp [EncappedKey.to_bytes]

/-- Authenticated `encap_with_eph`, closed form: on successful ephemeral and
identity DH it returns the KDF output at
ikm = dh(sk_eph, pk_recip) || dh(sk_sender_id, pk_recip),
salt = suite_id,
info = serialize(pk_eph) || serialize(pk_recip) || serialize(pk_sender_id). -/
theorem encap_auth_eq {SK PK KX : Type} (G : DhKeyExchange SK PK KX)
    (K : Kdf) (kem_id : Nat) (pk_recip : PK) (sk_sender_id : SK)
    (pk_sender_id : PK) (sk_eph : SK)
    (hser : ∀ pk : PK, (G.pkToBytes pk).length ≤ MAX_PUBKEY_SIZE)
    (hkx : ∀ x : KX, (G.kxToBytes x).length ≤ MAX_PUBKEY_SIZE) :
    encap_with_eph G K kem_id pk_recip (some (sk_sender_id, pk_sender_id))
        sk_eph =
      match G.dh sk_eph pk_recip with
      | none => some (Except.error HpkeError.EncapError)
      | some kex_res_eph =>
        match G.dh sk_sender_id pk_recip with
        | none => some (Except.error HpkeError.EncapError)
        | some kex_res_identity => some (Except.ok
            (K.hkdf (G.kxToBytes kex_res_eph ++ G.kxToBytes kex_res_identity)
               (kem_suite_id kem_id)
               (G.pkToBytes (G.sk_to_pk sk_eph) ++
                 (G.pkToBytes pk_recip ++ G.pkToBytes pk_sender_id))
               K.hashLen,
             ⟨G.sk_to_pk sk_eph⟩)) := by
  have hbctx : (([EncappedKey.to_bytes G ⟨G.sk_to_pk sk_eph⟩,
        G.pkToBytes pk_recip, G.pkToBytes pk_sender_id].map
          List.length).sum) ≤ 3 * MAX_PUBKEY_SIZE := by
    have ha := hser (G.sk_to_pk sk_eph)
    have hb := hser pk_recip
    have hc := hser pk_sender_id
    simp only [List.map_cons, List.map_nil, List.sum_cons, List.sum_nil,
      EncappedKey.to_bytes]
    omega
  cases h1 : G.dh sk_eph pk_recip with
  | none => simp [encap_with_eph, h1]
  | some kex_res_eph =>
    cases h2 : G.dh sk_sender_id pk_recip with
    | none =>
      simp only [encap_with_eph, h1]
      rw [concat_eq _ _ hbctx]
      simp [h2]
    | some kex_res_identity =>
      have hbsec : (([G.kxToBytes kex_res_eph,
            G.kxToBytes kex_res_identity].map List.length).sum) ≤
          3 * MAX_PUBKEY_SIZE := by
        have ha := hkx kex_res_eph
        have hb := hkx kex_res_identity
        simp only [List.map_cons, List.map_nil, List.sum_cons, List.sum_nil]
        omega
      simp only [encap_with_eph, h1]
      rw [concat_eq _ _ hbctx]
      simp only [h2]
      rw [concat_eq _ _ hbsec]
      simp only [List.take_left' (List.length_flatten _),
        extract_and_expand_total]
      simp [EncappedKey.to_bytes]

/-- Unauthenticated `decap`, closed form: on a successful DH with the
encapped ephemeral pubkey it returns the KDF output at
ikm = dh(sk_recip, pk_eph), salt = suite_id,
info = serialize(pk_eph) || serialize(sk_to_pk(sk_recip)). -/
theorem decap_unauth_eq {SK PK KX : Type} (G : DhKeyExchange SK PK KX)
    (K : Kdf) (kem_id : Nat) (sk_recip : SK) (encapped_key : EncappedKey PK)
    (hser : ∀ pk : PK, (G.pkToBytes pk).length ≤ MAX_PUBKEY_SIZE) :
    decap G K kem_id sk_recip none encapped_key =
      match G.dh sk_recip encapped_key.pubkey with
      | none => some (Except.error HpkeError.DecapError)
      | some kex_res_eph => some (Except.ok
          (K.hkdf (G.kxToBytes kex_res_eph) (kem_suite_id kem_id)
             (G.pkToBytes encapped_key.pubkey ++
               G.pkToBytes (G.sk_to_pk sk_recip))
             K.hashLen)) := by
  have hbctx : (([EncappedKey.to_bytes G encapped_key,
        G.pkToBytes (G.sk_to_pk sk_recip)].map List.length).sum) ≤
      3 * MAX_PUBKEY_SIZE := by
    have ha := hser encapped_key.pubkey
    have hb := hser (G.sk_to_pk sk_recip)
    simp only [List.map_cons, List.map_nil, List.sum_cons, List.sum_nil,
      EncappedKey.to_bytes]
    omega
  cases h1 : G.dh sk_recip encapped_key.pubkey with
  | none => simp [decap, h1]
  | some kex_res_eph =>
    simp only [decap, h1]
    rw [concat_eq _ _ hbctx]
    simp only [List.take_left' (List.length_flatten _),
      extract_and_expand_total]
    simp [EncappedKey.to_bytes]

/-- Authenticated `decap`, closed form: on successful ephemeral and identity
DH it returns the KDF output at
ikm = dh(sk_recip, pk_eph) || dh(sk_recip, pk_sender_id),
salt = suite_id,
info = serialize(pk_eph) || serialize(sk_to_pk(sk_recip)) || serialize(pk_sender_id). -/
theorem decap_auth_eq {SK PK KX : Type} (G : DhKeyExchange SK PK KX)
    (K : Kdf) (kem_id : Nat) (sk_recip : SK) (pkS : PK)
    (encapped_key : EncappedKey PK)
    (hser : ∀ pk : PK, (G.pkToBytes pk).length ≤ MAX_PUBKEY_SIZE)
    (hkx : ∀ x : KX, (G.kxToBytes x).length ≤ MAX_PUBKEY_SIZE) :
    decap G K kem_id sk_recip (some pkS) encapped_key =
      match G.dh sk_recip encapped_key.pubkey with
      | none => some (Except.error HpkeError.DecapError)
      | some kex_res_eph =>
        match G.dh sk_recip pkS with
        | none => some (Except.error HpkeError.DecapError)
        | some kex_res_identity => some (Except.ok
            (K.hkdf (G.kxToBytes kex_res_eph ++ G.kxToBytes kex_res_identity)
               (kem_suite_id kem_id)
               (G.pkToBytes encapped_key.pubkey ++
                 (G.pkToBytes (G.sk_to_pk sk_recip) ++ G.pkToBytes pkS))
               K.hashLen)) := by
  have hbctx : (([EncappedKey.to_bytes G encapped_key,
        G.pkToBytes (G.sk_to_pk sk_recip), G.pkToBytes pkS].map
          List.length).sum) ≤ 3 * MAX_PUBKEY_SIZE := by
    have ha := hser encapped_key.pubkey
    have hb := hser (G.sk_to_pk sk_recip)
    have hc := hser pkS
    simp only [List.map_cons, List.map_nil, List.sum_cons, List.sum_nil,
      EncappedKey.to_bytes]
    omega
  cases h1 : G.dh sk_recip encapped_key.pubkey with
  | none => simp [decap, h1]
  | some kex_res_eph =>
    cases h2 : G.dh sk_recip pkS with
    | none =>
      simp only [decap, h1]
      rw [concat_eq _ _ hbctx]
      simp [h2]
    | some kex_res_identity =>
      have hbsec : (([G.kxToBytes kex_res_eph,
            G.kxToBytes kex_res_identity].map List.length).sum) ≤
          3 * MAX_PUBKEY_SIZE := by
        have ha := hkx kex_res_eph
        have hb := hkx kex_res_identity
        simp only [List.map_cons, List.map_nil, List.sum_cons, List.sum_nil]
        omega
      simp only [decap, h1]
      rw [concat_eq _ _ hbctx]
      simp only [h2]
      rw [concat_eq _ _ hbsec]
      simp only [List.take_left' (List.length_flatten _),
        extract_and_expand_total]
      simp [EncappedKey.to_bytes]

/-! ### A small concrete instantiation, used to evaluate the theorems on
concrete inputs: the multiplicative group mod 11 with generator 2
(secret keys in `Fin 8`, public keys and exchange results in `Fin 11`,
one-byte serializations), and a toy total KDF. -/

def demoGroup : DhKeyExchange (Fin 8) (Fin 11) (Fin 11) where
  dh sk pk :=
    if 1 < pk.val ^ sk.val % 11 then some ⟨pk.val ^ sk.val % 11, by omega⟩
    else none
  sk_to_pk sk := ⟨2 ^ sk.val % 11, by omega⟩
  pkToBytes pk := [pk.val]
  pkFromBytes bs :=
    match bs with
    | [b] =>
      if h : b < 11 then Except.ok ⟨b, h⟩
      else Except.error HpkeError.DeserializeError
    | _ => Except.error HpkeError.DeserializeError
  kxToBytes kx := [kx.val]

def demoKdf : Kdf where
  hashLen := 2
  hkdf ikm salt info outLen :=
    List.replicate outLen ((ikm.sum + 3 * salt.sum + 7 * info.sum) % 256)

/-! ### Claim theorems -/

/-- C1: Round-trip correctness (unauthenticated): for every recipient
keypair (sk_recip, pk_recip) with pk_recip = sk_to_pk(sk_recip) and every
ephemeral private key for which unauthenticated encap succeeds,
decap(sk_recip, None, snd(encap(pk_recip, None, sk_eph))) equals
fst(encap(pk_recip, None, sk_eph)). The group is assumed to satisfy the
Diffie-Hellman commutation law on keypairs. -/
theorem round_trip_unauth {SK PK KX : Type} (G : DhKeyExchange SK PK KX)
    (K : Kdf) (kem_id : Nat)
    (hcomm : ∀ s1 s2 : SK, G.dh s1 (G.sk_to_pk s2) = G.dh s2 (G.sk_to_pk s1))
    (sk_recip sk_eph : SK) (pk_recip : PK)
    (hpk : pk_recip = G.sk_to_pk sk_recip)
    (ss : List Nat) (ek : EncappedKey PK)
    (henc : encap_with_eph G K kem_id pk_recip none sk_eph =
      some (Except.ok (ss, ek))) :
    decap G K kem_id sk_recip none ek = some (Except.ok ss) := by
  subst hpk
  cases h1 : G.dh sk_eph (G.sk_to_pk sk_recip) with
  | none => simp [encap_with_eph, h1] at henc
  | some kx =>
    simp only [encap_with_eph, h1] at henc
    cases h2 : concat_with_known_maxlen MAX_PUBKEY_SIZE
        [EncappedKey.to_bytes G ⟨G.sk_to_pk sk_eph⟩,
         G.pkToBytes (G.sk_to_pk sk_recip)] with
    | none => rw [h2] at henc; simp at henc
    | some p =>
      obtain ⟨buf, size⟩ := p
      simp only [h2, extract_and_expand_total] at henc
      simp only [Option.some.injEq, Except.ok.injEq, Prod.mk.injEq] at henc
      obtain ⟨hss, hek⟩ := henc
      subst hek
      have hdh : G.dh sk_recip (G.sk_to_pk sk_eph) = some kx :=
        (hcomm sk_recip sk_eph).trans h1
      simp only [decap, hdh]
      simp only [h2, extract_and_expand_total]
      simp [hss]

/-- C2: Round-trip correctness (authenticated): for every recipient keypair,
sender-identity keypair and ephemeral private key for which authenticated
encap succeeds, decapsulating with the sender's public key yields exactly
the shared secret returned by that encap call. -/
theorem round_trip_auth {SK PK KX : Type} (G : DhKeyExchange SK PK KX)
    (K : Kdf) (kem_id : Nat)
    (hcomm : ∀ s1 s2 : SK, G.dh s1 (G.sk_to_pk s2) = G.dh s2 (G.sk_to_pk s1))
    (sk_recip sk_sender sk_eph : SK) (pk_recip pk_sender : PK)
    (hpk : pk_recip = G.sk_to_pk sk_recip)
    (hpkS : pk_sender = G.sk_to_pk sk_sender)
    (ss : List Nat) (ek : EncappedKey PK)
    (henc : encap_with_eph G K kem_id pk_recip
        (some (sk_sender, pk_sender)) sk_eph = some (Except.ok (ss, ek))) :
    decap G K kem_id sk_recip (some pk_sender) ek =
      some (Except.ok ss) := by
  subst hpk
  subst hpkS
  cases h1 : G.dh sk_eph (G.sk_to_pk sk_recip) with
  | none => simp [encap_with_eph, h1] at henc
  | some kx =>
    simp only [encap_with_eph, h1] at henc
    cases h2 : concat_with_known_maxlen MAX_PUBKEY_SIZE
        [EncappedKey.to_bytes G ⟨G.sk_to_pk sk_eph⟩,
         G.pkToBytes (G.sk_to_pk sk_recip),
         G.pkToBytes (G.sk_to_pk sk_sender)] with
    | none => rw [h2] at henc; simp at henc
    | some p =>
      obtain ⟨ctxbuf, ctxsize⟩ := p
      simp only [h2] at henc
      cases h3 : G.dh sk_sender (G.sk_to_pk sk_recip) with
      | none => simp [h3] at henc
      | some kx2 =>
        simp only [h3] at henc
        cases h4 : concat_with_known_maxlen MAX_PUBKEY_SIZE
            [G.kxToBytes kx, G.kxToBytes kx2] with
        | none => simp [h4] at henc
        | some q =>
          obtain ⟨secbuf, secsize⟩ := q
          simp only [h4, extract_and_expand_total] at henc
          simp only [Option.some.injEq, Except.ok.injEq,
            Prod.mk.injEq] at henc
          obtain ⟨hss, hek⟩ := henc
          subst hek
          have hdh : G.dh sk_recip (G.sk_to_pk sk_eph) = some kx :=
            (hcomm sk_recip sk_eph).trans h1
          have hdh2 : G.dh sk_recip (G.sk_to_pk sk_sender) = some kx2 :=
            (hcomm sk_recip sk_sender).trans h3
          simp only [decap, hdh]
          simp only [h2, hdh2]
          simp only [h4, extract_and_expand_total]
          simp [hss]

/-- C3: in encap, when no sender identity is supplied, the KDF is called
with salt = suite_id, info = kem_context = serialize(pk_eph) ||
serialize(pk_recip), ikm = dh(sk_eph, pk_recip); with a sender identity,
kem_context = serialize(pk_eph) || serialize(pk_recip) ||
serialize(pk_sender_id) and ikm = dh(sk_eph, pk_recip) ||
dh(sk_sender_id, pk_recip), in exactly these concatenation orders
(`extract_and_expand`'s arguments are ikm, salt, info in that order). -/
theorem encap_kdf_inputs {SK PK KX : Type} (G : DhKeyExchange SK PK KX)
    (K : Kdf) (kem_id : Nat) (pk_recip : PK) (sk_sender_id : SK)
    (pk_sender_id : PK) (sk_eph : SK) (kx kx2 : KX)
    (hser : ∀ pk : PK, (G.pkToBytes pk).length ≤ MAX_PUBKEY_SIZE)
    (hkx : ∀ x : KX, (G.kxToBytes x).length ≤ MAX_PUBKEY_SIZE)
    (hdh : G.dh sk_eph pk_recip = some kx)
    (hdh2 : G.dh sk_sender_id pk_recip = some kx2) :
    encap_with_eph G K kem_id pk_recip none sk_eph =
      (extract_and_expand K (G.kxToBytes kx) (kem_suite_id kem_id)
          (G.pkToBytes (G.sk_to_pk sk_eph) ++ G.pkToBytes pk_recip)
          K.hashLen).map
        (fun ss => Except.ok (ss, ⟨G.sk_to_pk sk_eph⟩)) ∧
    encap_with_eph G K kem_id pk_recip
        (some (sk_sender_id, pk_sender_id)) sk_eph =
      (extract_and_expand K (G.kxToBytes kx ++ G.kxToBytes kx2)
          (kem_suite_id kem_id)
          (G.pkToBytes (G.sk_to_pk sk_eph) ++
            (G.pkToBytes pk_recip ++ G.pkToBytes pk_sender_id))
          K.hashLen).map
        (fun ss => Except.ok (ss, ⟨G.sk_to_pk sk_eph⟩)) := by
  constructor
  · rw [encap_unauth_eq G K kem_id pk_recip sk_eph hser]
    simp [hdh, extract_and_expand_total]
  · rw [encap_auth_eq G K kem_id pk_recip sk_sender_id pk_sender_id sk_eph
      hser hkx]
    simp [hdh, hdh2, extract_and_expand_total]

/-- C4: decap mirrors encap exactly: the recipient public key is recomputed
from sk_recip via sk_to_pk (decap takes no pk_recip parameter), pk_eph is
the public key carried by the encapped key, the branching on the presence
of pk_sender_id matches encap's, the kem_context is built in the same
order as in encap (compare `encap_kdf_inputs`), and the DH outputs are
concatenated as dh(sk_recip, pk_eph) || dh(sk_recip, pk_sender_id). -/
theorem decap_mirrors_encap {SK PK KX : Type} (G : DhKeyExchange SK PK KX)
    (K : Kdf) (kem_id : Nat) (sk_recip : SK) (pkS : PK)
    (ek : EncappedKey PK) (kx kx2 : KX)
    (hser : ∀ pk : PK, (G.pkToBytes pk).length ≤ MAX_PUBKEY_SIZE)
    (hkx : ∀ x : KX, (G.kxToBytes x).length ≤ MAX_PUBKEY_SIZE)
    (hdh : G.dh sk_recip ek.pubkey = some kx)
    (hdh2 : G.dh sk_recip pkS = some kx2) :
    decap G K kem_id sk_recip none ek =
      (extract_and_expand K (G.kxToBytes kx) (kem_suite_id kem_id)
          (G.pkToBytes ek.pubkey ++ G.pkToBytes (G.sk_to_pk sk_recip))
          K.hashLen).map Except.ok ∧
    decap G K kem_id sk_recip (some pkS) ek =
      (extract_and_expand K (G.kxToBytes kx ++ G.kxToBytes kx2)
          (kem_suite_id kem_id)
          (G.pkToBytes ek.pubkey ++
            (G.pkToBytes (G.sk_to_pk sk_recip) ++ G.pkToBytes pkS))
          K.hashLen).map Except.ok := by
  constructor
  · rw [decap_unauth_eq G K kem_id sk_recip ek hser]
    simp [hdh, extract_and_expand_total]
  · rw [decap_auth_eq G K kem_id sk_recip pkS ek hser hkx]
    simp [hdh, hdh2, extract_and_expand_total]

/-- C5: in every use of the concatenation buffer by encap and decap, the
slices joined (two or three serialized public keys, or two DH outputs)
have total length within the buffer's capacity bound of
3 · MAX_PUBKEY_SIZE, so the concatenation succeeds, and neither
encap_with_eph nor decap ever reaches a panic (`none`) for any group
whose serializations respect MAX_PUBKEY_SIZE. -/
theorem concat_buffer_within_bounds {SK PK KX : Type}
    (G : DhKeyExchange SK PK KX) (K : Kdf) (kem_id : Nat)
    (hser : ∀ pk : PK, (G.pkToBytes pk).length ≤ MAX_PUBKEY_SIZE)
    (hkx : ∀ x : KX, (G.kxToBytes x).length ≤ MAX_PUBKEY_SIZE) :
    (∀ a b c : PK,
      (([G.pkToBytes a, G.pkToBytes b].map List.length).sum ≤
          3 * MAX_PUBKEY_SIZE ∧
        concat_with_known_maxlen MAX_PUBKEY_SIZE
          [G.pkToBytes a, G.pkToBytes b] ≠ none) ∧
      (([G.pkToBytes a, G.pkToBytes b, G.pkToBytes c].map List.length).sum ≤
          3 * MAX_PUBKEY_SIZE ∧
        concat_with_known_maxlen MAX_PUBKEY_SIZE
          [G.pkToBytes a, G.pkToBytes b, G.pkToBytes c] ≠ none)) ∧
    (∀ x y : KX,
      ([G.kxToBytes x, G.kxToBytes y].map List.length).sum ≤
          3 * MAX_PUBKEY_SIZE ∧
        concat_with_known_maxlen MAX_PUBKEY_SIZE
          [G.kxToBytes x, G.kxToBytes y] ≠ none) ∧
    (∀ (pk : PK) (s : Option (SK × PK)) (skE : SK),
      encap_with_eph G K kem_id pk s skE ≠ none) ∧
    (∀ (skR : SK) (ps : Option PK) (ek : EncappedKey PK),
      decap G K kem_id skR ps ek ≠ none) := by
  have hb2 : ∀ a b : List Nat, a.length ≤ MAX_PUBKEY_SIZE →
      b.length ≤ MAX_PUBKEY_SIZE →
      (([a, b].map List.length).sum ≤ 3 * MAX_PUBKEY_SIZE) := by
    intro a b ha hb
    simp only [List.map_cons, List.map_nil, List.sum_cons, List.sum_nil]
    omega
  have hb3 : ∀ a b c : List Nat, a.length ≤ MAX_PUBKEY_SIZE →
      b.length ≤ MAX_PUBKEY_SIZE → c.length ≤ MAX_PUBKEY_SIZE →
      (([a, b, c].map List.length).sum ≤ 3 * MAX_PUBKEY_SIZE) := by
    intro a b c ha hb hc
    simp only [List.map_cons, List.map_nil, List.sum_cons, List.sum_nil]
    omega
  refine ⟨?_, ?_, ?_, ?_⟩
  · intro a b c
    exact ⟨⟨hb2 _ _ (hser a) (hser b),
        by rw [concat_eq _ _ (hb2 _ _ (hser a) (hser b))]; simp⟩,
      ⟨hb3 _ _ _ (hser a) (hser b) (hser c),
        by rw [concat_eq _ _ (hb3 _ _ _ (hser a) (hser b) (hser c))]; simp⟩⟩
  · intro x y
    exact ⟨hb2 _ _ (hkx x) (hkx y),
      by rw [concat_eq _ _ (hb2 _ _ (hkx x) (hkx y))]; simp⟩
  · intro pk s skE
    cases s with
    | none =>
      rw [encap_unauth_eq G K kem_id pk skE hser]
      cases h : G.dh skE pk <;> simp
    | some p =>
      obtain ⟨skS, pkS⟩ := p
      rw [encap_auth_eq G K kem_id pk skS pkS skE hser hkx]
      cases h1 : G.dh skE pk with
      | none => simp
      | some kx => cases h2 : G.dh skS pk <;> simp
  · intro skR ps ek
    cases ps with
    | none =>
      rw [decap_unauth_eq G K kem_id skR ek hser]
      cases h : G.dh skR ek.pubkey <;> simp
    | some pkS =>
      rw [decap_auth_eq G K kem_id skR pkS ek hser hkx]
      cases h1 : G.dh skR ek.pubkey with
      | none => simp
      | some kx => cases h2 : G.dh skR pkS <;> simp

/-- C6: for every byte string supplied as wire input,
`EncappedKey::from_bytes` rejects malformed input with the group's
deserialization error propagated unchanged, and any decap call on a
successfully deserialized key completes without a panic, every failure
surfacing as the typed DecapError. -/
theorem wire_input_safety {SK PK KX : Type} (G : DhKeyExchange SK PK KX)
    (K : Kdf) (kem_id : Nat)
    (hser : ∀ pk : PK, (G.pkToBytes pk).length ≤ MAX_PUBKEY_SIZE)
    (hkx : ∀ x : KX, (G.kxToBytes x).length ≤ MAX_PUBKEY_SIZE) :
    (∀ (encoded : List Nat) (e : HpkeError),
      G.pkFromBytes encoded = Except.error e →
        EncappedKey.from_bytes G encoded = Except.error e) ∧
    (∀ (encoded : List Nat) (ek : EncappedKey PK),
      EncappedKey.from_bytes G encoded = Except.ok ek →
        ∀ (skR : SK) (ps : Option PK),
          decap G K kem_id skR ps ek ≠ none ∧
          ∀ e : HpkeError, decap G K kem_id skR ps ek =
              some (Except.error e) → e = HpkeError.DecapError) := by
  constructor
  · intro encoded e h
    simp [EncappedKey.from_bytes, h]
  · intro encoded ek _ skR ps
    constructor
    · cases ps with
      | none =>
        rw [decap_unauth_eq G K kem_id skR ek hser]
        cases h : G.dh skR ek.pubkey <;> simp
      | some pkS =>
        rw [decap_auth_eq G K kem_id skR pkS ek hser hkx]
        cases h1 : G.dh skR ek.pubkey with
        | none => simp
        | some kx => cases h2 : G.dh skR pkS <;> simp
    · intro e
      cases ps with
      | none =>
        rw [decap_unauth_eq G K kem_id skR ek hser]
        cases h : G.dh skR ek.pubkey with
        | none => simp; intro h'; exact h'.symm
        | some kx => simp
      | some pkS =>
        rw [decap_auth_eq G K kem_id skR pkS ek hser hkx]
        cases h1 : G.dh skR ek.pubkey with
        | none => simp; intro h'; exact h'.symm
        | some kx =>
          cases h2 : G.dh skR pkS with
          | none => simp; intro h'; exact h'.symm
          | some kx2 => simp

/-- C7: encap returns Err exactly when one of its DH exchanges (the
ephemeral one, or additionally the identity one in authenticated mode)
fails, and then the error is EncapError; decap returns Err exactly when one
of its DH exchanges fails, and then the error is DecapError; no other error
results are produced. -/
theorem errors_exactly_on_dh_failure {SK PK KX : Type}
    (G : DhKeyExchange SK PK KX) (K : Kdf) (kem_id : Nat)
    (hser : ∀ pk : PK, (G.pkToBytes pk).length ≤ MAX_PUBKEY_SIZE)
    (hkx : ∀ x : KX, (G.kxToBytes x).length ≤ MAX_PUBKEY_SIZE) :
    (∀ (pkR : PK) (s : Option (SK × PK)) (skE : SK) (e : HpkeError),
      encap_with_eph G K kem_id pkR s skE = some (Except.error e) ↔
        (e = HpkeError.EncapError ∧
          (G.dh skE pkR = none ∨
            ∃ p : SK × PK, s = some p ∧ G.dh p.1 pkR = none))) ∧
    (∀ (skR : SK) (ps : Option PK) (ek : EncappedKey PK) (e : HpkeError),
      decap G K kem_id skR ps ek = some (Except.error e) ↔
        (e = HpkeError.DecapError ∧
          (G.dh skR ek.pubkey = none ∨
            ∃ pkS : PK, ps = some pkS ∧ G.dh skR pkS = none))) := by
  constructor
  · intro pkR s skE e
    cases s with
    | none =>
      rw [encap_unauth_eq G K kem_id pkR skE hser]
      cases h : G.dh skE pkR <;> simp [eq_comm]
    | some p =>
      obtain ⟨skS, pkS⟩ := p
      rw [encap_auth_eq G K kem_id pkR skS pkS skE hser hkx]
      cases h1 : G.dh skE pkR with
      | none => simp [eq_comm]
      | some kx =>
        cases h2 : G.dh skS pkR with
        | none => simp [h1, h2, eq_comm]
        | some kx2 => simp [h1, h2]
  · intro skR ps ek e
    cases ps with
    | none =>
      rw [decap_unauth_eq G K kem_id skR ek hser]
      cases h : G.dh skR ek.pubkey <;> simp [eq_comm]
    | some pkS =>
      rw [decap_auth_eq G K kem_id skR pkS ek hser hkx]
      cases h1 : G.dh skR ek.pubkey with
      | none => simp [eq_comm]
      | some kx =>
        cases h2 : G.dh skR pkS with
        | none => simp [h1, h2, eq_comm]
        | some kx2 => simp [h1, h2]

/-- C8: when the underlying DH exchanges succeed, decapsulating with a
sender identity a key encapped without one (and vice versa) returns Ok
rather than an error — the engine performs no detection of the mode used at
encapsulation — and the two modes feed the KDF different kem_contexts
(the authenticated context appends the nonempty serialized sender key), so
the derived secrets are bound to different KDF inputs. -/
theorem mode_mismatch_silent {SK PK KX : Type} (G : DhKeyExchange SK PK KX)
    (K : Kdf) (kem_id : Nat) (skR : SK) (pkS : PK) (ek : EncappedKey PK)
    (hser : ∀ pk : PK, (G.pkToBytes pk).length ≤ MAX_PUBKEY_SIZE)
    (hkx : ∀ x : KX, (G.kxToBytes x).length ≤ MAX_PUBKEY_SIZE)
    (hdh1 : ∃ x : KX, G.dh skR ek.pubkey = some x)
    (hdh2 : ∃ y : KX, G.dh skR pkS = some y)
    (hne : G.pkToBytes pkS ≠ []) :
    (∃ s : List Nat,
      decap G K kem_id skR (some pkS) ek = some (Except.ok s)) ∧
    (∃ s : List Nat,
      decap G K kem_id skR none ek = some (Except.ok s)) ∧
    G.pkToBytes ek.pubkey ++
        (G.pkToBytes (G.sk_to_pk skR) ++ G.pkToBytes pkS) ≠
      G.pkToBytes ek.pubkey ++ G.pkToBytes (G.sk_to_pk skR) := by
  obtain ⟨kx1, h1⟩ := hdh1
  obtain ⟨kx2, h2⟩ := hdh2
  refine ⟨?_, ?_, ?_⟩
  · rw [decap_auth_eq G K kem_id skR pkS ek hser hkx]
    simp [h1, h2]
  · rw [decap_unauth_eq G K kem_id skR ek hser]
    simp [h1]
  · intro h
    have hlen := congrArg List.length h
    simp only [List.length_append] at hlen
    exact hne (List.eq_nil_of_length_eq_zero (by omega))

/-- C9: for every encapped key e, its serialization is bit-for-bit the
group encoding of the wrapped public key (no framing, length prefix or
tag), and deserializing it returns e, given that the group's public-key
encoding round-trips. -/
theorem encapped_key_round_trip {SK PK KX : Type}
    (G : DhKeyExchange SK PK KX) (e : EncappedKey PK)
    (hrt : G.pkFromBytes (G.pkToBytes e.pubkey) = Except.ok e.pubkey) :
    EncappedKey.to_bytes G e = G.pkToBytes e.pubkey ∧
    EncappedKey.from_bytes G (EncappedKey.to_bytes G e) = Except.ok e := by
  obtain ⟨pk⟩ := e
  exact ⟨rfl, by simp [EncappedKey.from_bytes, EncappedKey.to_bytes, hrt]⟩

/-- Every Ok result of encap carries the encapped key
EncappedKey(sk_to_pk(sk_eph)), whatever the mode. -/
theorem encap_ok_encapped_key {SK PK KX : Type} (G : DhKeyExchange SK PK KX)
    (K : Kdf) (kem_id : Nat) (pkR : PK) (s : Option (SK × PK)) (skE : SK)
    (ss : List Nat) (ek : EncappedKey PK)
    (h : encap_with_eph G K kem_id pkR s skE = some (Except.ok (ss, ek))) :
    ek = ⟨G.sk_to_pk skE⟩ := by
  unfold encap_with_eph at h
  cases h1 : G.dh skE pkR with
  | none => simp [h1] at h
  | some kx =>
    simp only [h1] at h
    cases s with
    | none =>
      cases h2 : concat_with_known_maxlen MAX_PUBKEY_SIZE
          [EncappedKey.to_bytes G ⟨G.sk_to_pk skE⟩, G.pkToBytes pkR] with
      | none => simp [h2] at h
      | some p =>
        obtain ⟨buf, size⟩ := p
        simp only [h2, extract_and_expand_total] at h
        simp only [Option.some.injEq, Except.ok.injEq, Prod.mk.injEq] at h
        exact h.2.symm
    | some q =>
      obtain ⟨skS, pkS⟩ := q
      cases h2 : concat_with_known_maxlen MAX_PUBKEY_SIZE
          [EncappedKey.to_bytes G ⟨G.sk_to_pk skE⟩, G.pkToBytes pkR,
           G.pkToBytes pkS] with
      | none => simp [h2] at h
      | some p =>
        obtain ⟨buf, size⟩ := p
        simp only [h2] at h
        cases h3 : G.dh skS pkR with
        | none => simp [h3] at h
        | some kx2 =>
          simp only [h3] at h
          cases h4 : concat_with_known_maxlen MAX_PUBKEY_SIZE
              [G.kxToBytes kx, G.kxToBytes kx2] with
          | none => simp [h4] at h
          | some q2 =>
            obtain ⟨buf2, size2⟩ := q2
            simp only [h4, extract_and_expand_total] at h
            simp only [Option.some.injEq, Except.ok.injEq,
              Prod.mk.injEq] at h
            exact h.2.symm

/-- C10: for a fixed ephemeral private key and recipient public key, the
EncappedKey returned by encap is identical whether or not a sender identity
keypair is supplied: it is always EncappedKey(sk_to_pk(sk_eph)), so the
authentication mode affects only the derived shared secret. -/
theorem encapped_key_mode_independent {SK PK KX : Type}
    (G : DhKeyExchange SK PK KX) (K : Kdf) (kem_id : Nat) (pkR : PK)
    (s1 s2 : Option (SK × PK)) (skE : SK) (ss1 ss2 : List Nat)
    (ek1 ek2 : EncappedKey PK)
    (h1 : encap_with_eph G K kem_id pkR s1 skE =
      some (Except.ok (ss1, ek1)))
    (h2 : encap_with_eph G K kem_id pkR s2 skE =
      some (Except.ok (ss2, ek2))) :
    ek1 = ek2 ∧ ek1 = ⟨G.sk_to_pk skE⟩ := by
  have e1 := encap_ok_encapped_key G K kem_id pkR s1 skE ss1 ek1 h1
  have e2 := encap_ok_encapped_key G K kem_id pkR s2 skE ss2 ek2 h2
  exact ⟨e1.trans e2.symm, e1⟩

/-! ### Concrete witnesses, evaluating the theorems on the demo
instantiation (skR = 3, skS = 5, skE = 2; pkR = 8, pkS = 10, pkE = 4). -/

/-- Witness for `round_trip_unauth` at the demo instantiation. -/
theorem round_trip_unauth_witness :
    decap demoGroup demoKdf 32 3 none (EncappedKey.mk (4 : Fin 11)) =
      some (Except.ok [84, 84]) :=
  round_trip_unauth demoGroup demoKdf 32 (by decide) 3 2
    (demoGroup.sk_to_pk 3) rfl [84, 84] (EncappedKey.mk (4 : Fin 11)) rfl

/-- Witness for `round_trip_auth` at the demo instantiation. -/
theorem round_trip_auth_witness :
    decap demoGroup demoKdf 32 3 (some (10 : Fin 11))
        (EncappedKey.mk (4 : Fin 11)) = some (Except.ok [164, 164]) :=
  round_trip_auth demoGroup demoKdf 32 (by decide) 3 5 2
    (demoGroup.sk_to_pk 3) (10 : Fin 11) rfl rfl [164, 164]
    (EncappedKey.mk (4 : Fin 11)) rfl

/-- Witness for `encap_kdf_inputs` at the demo instantiation. -/
theorem encap_kdf_inputs_witness :
    encap_with_eph demoGroup demoKdf 32 (demoGroup.sk_to_pk 3) none 2 =
      (extract_and_expand demoKdf (demoGroup.kxToBytes 9) (kem_suite_id 32)
          (demoGroup.pkToBytes (demoGroup.sk_to_pk 2) ++
            demoGroup.pkToBytes (demoGroup.sk_to_pk 3))
          demoKdf.hashLen).map
        (fun ss => Except.ok (ss, ⟨demoGroup.sk_to_pk 2⟩)) ∧
    encap_with_eph demoGroup demoKdf 32 (demoGroup.sk_to_pk 3)
        (some (5, demoGroup.sk_to_pk 5)) 2 =
      (extract_and_expand demoKdf
          (demoGroup.kxToBytes 9 ++ demoGroup.kxToBytes 10)
          (kem_suite_id 32)
          (demoGroup.pkToBytes (demoGroup.sk_to_pk 2) ++
            (demoGroup.pkToBytes (demoGroup.sk_to_pk 3) ++
              demoGroup.pkToBytes (demoGroup.sk_to_pk 5)))
          demoKdf.hashLen).map
        (fun ss => Except.ok (ss, ⟨demoGroup.sk_to_pk 2⟩)) :=
  encap_kdf_inputs demoGroup demoKdf 32 (demoGroup.sk_to_pk 3) 5
    (demoGroup.sk_to_pk 5) 2 9 10 (by decide) (by decide) rfl rfl

/-- Witness for `decap_mirrors_encap` at the demo instantiation. -/
theorem decap_mirrors_encap_witness :
    decap demoGroup demoKdf 32 3 none (EncappedKey.mk (4 : Fin 11)) =
      (extract_and_expand demoKdf (demoGroup.kxToBytes 9) (kem_suite_id 32)
          (demoGroup.pkToBytes (EncappedKey.mk (4 : Fin 11)).pubkey ++
            demoGroup.pkToBytes (demoGroup.sk_to_pk 3))
          demoKdf.hashLen).map Except.ok ∧
    decap demoGroup demoKdf 32 3 (some (10 : Fin 11))
        (EncappedKey.mk (4 : Fin 11)) =
      (extract_and_expand demoKdf
          (demoGroup.kxToBytes 9 ++ demoGroup.kxToBytes 10)
          (kem_suite_id 32)
          (demoGroup.pkToBytes (EncappedKey.mk (4 : Fin 11)).pubkey ++
            (demoGroup.pkToBytes (demoGroup.sk_to_pk 3) ++
              demoGroup.pkToBytes (10 : Fin 11)))
          demoKdf.hashLen).map Except.ok :=
  decap_mirrors_encap demoGroup demoKdf 32 3 (10 : Fin 11)
    (EncappedKey.mk (4 : Fin 11)) 9 10 (by decide) (by decide) rfl rfl

/-- Witness for `concat_buffer_within_bounds` at the demo instantiation. -/
theorem concat_buffer_within_bounds_witness :
    encap_with_eph demoGroup demoKdf 32 (demoGroup.sk_to_pk 3) none 2 ≠
      none :=
  (concat_buffer_within_bounds demoGroup demoKdf 32 (by decide)
      (by decide)).2.2.1 (demoGroup.sk_to_pk 3) none 2

/-- Witness for `wire_input_safety` at the demo instantiation. -/
theorem wire_input_safety_witness :
    EncappedKey.from_bytes demoGroup [200] =
      Except.error HpkeError.DeserializeError ∧
    decap demoGroup demoKdf 32 3 none (EncappedKey.mk (4 : Fin 11)) ≠
      none :=
  ⟨(wire_input_safety demoGroup demoKdf 32 (by decide) (by decide)).1
      [200] HpkeError.DeserializeError rfl,
   ((wire_input_safety demoGroup demoKdf 32 (by decide) (by decide)).2
      [4] (EncappedKey.mk (4 : Fin 11)) rfl 3 none).1⟩

/-- Witness for `errors_exactly_on_dh_failure` at the demo instantiation
(the recipient pubkey derived from sk = 0 is the group identity, so the
ephemeral exchange fails). -/
theorem errors_exactly_on_dh_failure_witness :
    encap_with_eph demoGroup demoKdf 32 (demoGroup.sk_to_pk 0) none 2 =
        some (Except.error HpkeError.EncapError) ↔
      (HpkeError.EncapError = HpkeError.EncapError ∧
        (demoGroup.dh 2 (demoGroup.sk_to_pk 0) = none ∨
          ∃ p : Fin 8 × Fin 11,
            (none : Option (Fin 8 × Fin 11)) = some p ∧
              demoGroup.dh p.1 (demoGroup.sk_to_pk 0) = none)) :=
  (errors_exactly_on_dh_failure demoGroup demoKdf 32 (by decide)
      (by decide)).1 (demoGroup.sk_to_pk 0) none 2 HpkeError.EncapError

/-- Witness for `mode_mismatch_silent` at the demo instantiation. -/
theorem mode_mismatch_silent_witness :
    (∃ s : List Nat, decap demoGroup demoKdf 32 3 (some (10 : Fin 11))
        (EncappedKey.mk (4 : Fin 11)) = some (Except.ok s)) ∧
    (∃ s : List Nat, decap demoGroup demoKdf 32 3 none
        (EncappedKey.mk (4 : Fin 11)) = some (Except.ok s)) ∧
    demoGroup.pkToBytes (EncappedKey.mk (4 : Fin 11)).pubkey ++
        (demoGroup.pkToBytes (demoGroup.sk_to_pk 3) ++
          demoGroup.pkToBytes (10 : Fin 11)) ≠
      demoGroup.pkToBytes (EncappedKey.mk (4 : Fin 11)).pubkey ++
        demoGroup.pkToBytes (demoGroup.sk_to_pk 3) :=
  mode_mismatch_silent demoGroup demoKdf 32 3 (10 : Fin 11)
    (EncappedKey.mk (4 : Fin 11)) (by decide) (by decide)
    ⟨9, rfl⟩ ⟨10, rfl⟩ (by decide)

/-- Witness for `encapped_key_round_trip` at the demo instantiation. -/
theorem encapped_key_round_trip_witness :
    EncappedKey.to_bytes demoGroup (EncappedKey.mk (4 : Fin 11)) =
      demoGroup.pkToBytes (4 : Fin 11) ∧
    EncappedKey.from_bytes demoGroup
        (EncappedKey.to_bytes demoGroup (EncappedKey.mk (4 : Fin 11))) =
      Except.ok (EncappedKey.mk (4 : Fin 11)) :=
  encapped_key_round_trip demoGroup (EncappedKey.mk (4 : Fin 11)) rfl

/-- Witness for `encapped_key_mode_independent` at the demo instantiation:
unauthenticated and authenticated encap return the same encapped key. -/
theorem encapped_key_mode_independent_witness :
    EncappedKey.mk (4 : Fin 11) = EncappedKey.mk (4 : Fin 11) ∧
    EncappedKey.mk (4 : Fin 11) =
      (⟨demoGroup.sk_to_pk 2⟩ : EncappedKey (Fin 11)) :=
  encapped_key_mode_independent demoGroup demoKdf 32 (demoGroup.sk_to_pk 3)
    none (some (5, demoGroup.sk_to_pk 5)) 2 [84, 84] [164, 164]
    (EncappedKey.mk (4 : Fin 11)) (EncappedKey.mk (4 : Fin 11)) rfl rfl

end Hpke
